import Mathlib

/-!
Verification of the MQTT logging sink in `src/loggers/mqttlog.rs`
(repository `dmweis/simplelog.rs`).

We shallowly embed the data model and the operations of the sink:
the level gate (`MqttLogger::enabled`), the logging entry point
(`MqttLogger::log`), the worker thread's receive loop spawned in
`MqttLogger::new`, and the teardown path (`Drop for MqttLogger`).
External collaborators (the formatter `try_log`, the broker client)
are modelled as explicit function parameters, matching the spec's
treatment of them as opaque collaborators.
-/

namespace Simplelog

/-- Log levels of the `log` crate: `Error = 1 < Warn < Info < Debug < Trace = 5`
in discriminant order; a smaller discriminant is more severe. -/
inductive Level
  | error
  | warn
  | info
  | debug
  | trace
deriving DecidableEq, Repr

/-- Numeric discriminant of a `Level`, as in the `log` crate (`Error = 1`). -/
def Level.toNat : Level → Nat
  | .error => 1
  | .warn => 2
  | .info => 3
  | .debug => 4
  | .trace => 5

/-- `log::LevelFilter`: `Off = 0`, then the five levels in discriminant order. -/
inductive LevelFilter
  | off
  | error
  | warn
  | info
  | debug
  | trace
deriving DecidableEq, Repr

/-- Numeric discriminant of a `LevelFilter` (`Off = 0`, `Trace = 5`). -/
def LevelFilter.toNat : LevelFilter → Nat
  | .off => 0
  | .error => 1
  | .warn => 2
  | .info => 3
  | .debug => 4
  | .trace => 5

/-- The `log` crate's `Level <= LevelFilter` comparison: both sides are
compared as their numeric discriminants. -/
def levelLeFilter (l : Level) (f : LevelFilter) : Bool :=
  decide (l.toNat ≤ f.toNat)

/-- The host `Config` object; opaque to the sink, which only forwards it
to the external formatter. -/
structure Config where
  id : Nat := 0
deriving DecidableEq, Repr

/-- The metadata of a log record; the sink only inspects its level. -/
structure Metadata where
  level : Level
deriving DecidableEq, Repr

/-- A log record; the sink inspects only the metadata, the rest is consumed
opaquely by the external formatter. -/
structure Record where
  metadata : Metadata
deriving DecidableEq, Repr

/-- The `Command` enum of `mqttlog.rs`: `SendMessage(String)` (the spec's
`Publish`) and `Exit` (the spec's `Shutdown`). -/
inductive Command
  | sendMessage (payload : String)
  | exit
deriving DecidableEq, Repr

/-- The `MqttLogger` sink state visible to `enabled`/`log`: the immutable
`log_level` and the opaque `config` handed to the formatter. -/
structure MqttLogger where
  log_level : LevelFilter
  config : Config
deriving DecidableEq, Repr

/-- `MqttLogger::enabled`: `metadata.level() <= self.log_level`. -/
def MqttLogger.enabled (lg : MqttLogger) (m : Metadata) : Bool :=
  levelLeFilter m.level lg.log_level

/-- Rust's `char::is_whitespace`: the Unicode `White_Space` property. -/
def isRustWhitespace (c : Char) : Bool :=
  let n := c.toNat
  n == 0x09 || n == 0x0A || n == 0x0B || n == 0x0C || n == 0x0D || n == 0x20 ||
  n == 0x85 || n == 0xA0 || n == 0x1680 || (0x2000 ≤ n && n ≤ 0x200A) ||
  n == 0x2028 || n == 0x2029 || n == 0x202F || n == 0x205F || n == 0x3000

/-- Rust's `str::trim_end`: drop trailing whitespace characters. -/
def trimEnd (cs : List Char) : List Char :=
  (cs.reverse.dropWhile isRustWhitespace).reverse

/-- Is `b` a UTF-8 continuation byte (`0x80 ..= 0xBF`)? -/
def isCont (b : Nat) : Bool :=
  0x80 ≤ b && b ≤ 0xBF

/-- Valid second byte of a three-byte UTF-8 sequence with lead byte `b1`
(excludes overlong encodings and surrogates, as Rust's `str::from_utf8`). -/
def utf8Second3 (b1 b2 : Nat) : Bool :=
  if b1 == 0xE0 then 0xA0 ≤ b2 && b2 ≤ 0xBF
  else if b1 == 0xED then 0x80 ≤ b2 && b2 ≤ 0x9F
  else isCont b2

/-- Valid second byte of a four-byte UTF-8 sequence with lead byte `b1`
(excludes overlong encodings and code points above `U+10FFFF`). -/
def utf8Second4 (b1 b2 : Nat) : Bool :=
  if b1 == 0xF0 then 0x90 ≤ b2 && b2 ≤ 0xBF
  else if b1 == 0xF4 then 0x80 ≤ b2 && b2 ≤ 0x8F
  else isCont b2

/-- UTF-8 decoding of a byte sequence, as validated by Rust's
`str::from_utf8`: `none` exactly when the bytes are not valid UTF-8. -/
def utf8Decode : List Nat → Option (List Char)
  | [] => some []
  | b1 :: rest =>
    if b1 ≤ 0x7F then
      (utf8Decode rest).map (fun cs => Char.ofNat b1 :: cs)
    else if 0xC2 ≤ b1 && b1 ≤ 0xDF then
      match rest with
      | b2 :: rest2 =>
        if isCont b2 then
          (utf8Decode rest2).map
            (fun cs => Char.ofNat ((b1 - 0xC0) * 0x40 + (b2 - 0x80)) :: cs)
        else none
      | [] => none
    else if 0xE0 ≤ b1 && b1 ≤ 0xEF then
      match rest with
      | b2 :: b3 :: rest3 =>
        if utf8Second3 b1 b2 && isCont b3 then
          (utf8Decode rest3).map
            (fun cs => Char.ofNat ((b1 - 0xE0) * 0x1000 + (b2 - 0x80) * 0x40 + (b3 - 0x80)) :: cs)
        else none
      | _ => none
    else if 0xF0 ≤ b1 && b1 ≤ 0xF4 then
      match rest with
      | b2 :: b3 :: b4 :: rest4 =>
        if utf8Second4 b1 b2 && isCont b3 && isCont b4 then
          (utf8Decode rest4).map
            (fun cs =>
              Char.ofNat ((b1 - 0xF0) * 0x40000 + (b2 - 0x80) * 0x1000 +
                (b3 - 0x80) * 0x40 + (b4 - 0x80)) :: cs)
        else none
      | _ => none
    else none

/-- The formatter collaborator `try_log(config, record, buffer)`: called with
the sink's config and the record, it either fails or fills the byte buffer. -/
def Formatter : Type :=
  Config → Record → Except Unit (List Nat)

/-- The observable outcome of one `MqttLogger::log` call: nothing happens,
a command is sent to the channel, or the thread panics (the
`str::from_utf8(..).unwrap()` on malformed bytes). -/
inductive LogOutcome
  | noop
  | enqueue (c : Command)
  | fatalInvalidUtf8
deriving DecidableEq, Repr

/-- `MqttLogger::log`: if enabled, run `try_log` into a fresh buffer; on
success, if the buffer is non-empty, decode it as UTF-8 (panicking on
failure), trim trailing whitespace and send `Command::SendMessage`. -/
def MqttLogger.log (lg : MqttLogger) (try_log : Formatter) (record : Record) :
    LogOutcome :=
  if lg.enabled record.metadata then
    match try_log lg.config record with
    | .error _ => .noop
    | .ok data =>
      if data.isEmpty then .noop
      else
        match utf8Decode data with
        | none => .fatalInvalidUtf8
        | some cs => .enqueue (Command.sendMessage ⟨trimEnd cs⟩)
  else .noop

/-- The result of running the worker thread's receive loop: the broker
publishes it performed (topic, payload pairs, in order), the commands left
unconsumed in the queue when the loop stopped, and whether it panicked. -/
structure WorkerRun where
  pubs : List (String × String)
  remaining : List Command
  panicked : Bool
deriving DecidableEq, Repr

/-- The worker's receive loop (`for message in rx.iter()` in
`MqttLogger::new`): `SendMessage` publishes to `"logging/" ++ appName`,
panicking if the broker publish fails; `Exit` breaks immediately. The queue
is modelled as the finite list of commands the channel will ever deliver;
`pubOk m` tells whether the broker accepts the publish of payload `m`. -/
def workerLoop (appName : String) (pubOk : String → Bool) :
    List Command → WorkerRun
  | [] => ⟨[], [], false⟩
  | Command.exit :: rest => ⟨[], rest, false⟩
  | Command.sendMessage m :: rest =>
    if pubOk m then
      let r := workerLoop appName pubOk rest
      ⟨("logging/" ++ appName, m) :: r.pubs, r.remaining, r.panicked⟩
    else ⟨[], rest, true⟩

/-- The whole worker thread body: first `MqttClient::start`; on error the
thread returns silently without entering the receive loop (no command is
consumed, nothing is published, no panic); on success it runs the loop. -/
def workerThread (appName : String) (startOk : Bool) (pubOk : String → Bool)
    (queue : List Command) : WorkerRun :=
  if startOk then workerLoop appName pubOk queue
  else ⟨[], queue, false⟩

/-- Observable events of the teardown path (`Drop for MqttLogger`). -/
inductive DropEvent
  | sendAttempt (c : Command)
  | joinAttempt
  | fatal (msg : String)
deriving DecidableEq, Repr

/-- `Drop for MqttLogger`: send `Command::Exit` (panicking if the send
fails), then take the join handle; if present, join the worker thread
(panicking if the join fails); if absent, panic. `sendOk` is whether the
channel send succeeds, `handle` the `Option<JoinHandle>` slot, `joinOk`
whether `handle.join()` returns `Ok`. -/
def mqttDrop (sendOk : Bool) (handle : Option Unit) (joinOk : Bool) :
    List DropEvent :=
  DropEvent.sendAttempt Command.exit ::
    (if sendOk then
      match handle with
      | some _ =>
        DropEvent.joinAttempt ::
          (if joinOk then [] else [DropEvent.fatal "Failed joining MQTT thread"])
      | none => [DropEvent.fatal "Missing join handle for MQTT thread"]
    else [DropEvent.fatal "Failed to load Exit message to channel"])

/-- C2: for every level `L` and every sink configured at `log_level` `C`,
`enabled(L)` returns true iff `L <= C` under the level ordering; a record at
exactly the configured level is accepted, and a record strictly less severe
(larger discriminant) is rejected. -/
theorem C2_enabled_level_gate :
    ∀ (lg : MqttLogger) (l : Level),
      (lg.enabled ⟨l⟩ = true ↔ l.toNat ≤ lg.log_level.toNat)
      ∧ (l.toNat = lg.log_level.toNat → lg.enabled ⟨l⟩ = true)
      ∧ (lg.log_level.toNat < l.toNat → lg.enabled ⟨l⟩ = false) := by
  intro lg l
  refine ⟨?_, ?_, ?_⟩
  all_goals simp [MqttLogger.enabled, levelLeFilter]
  all_goals omega

/-- Witness for C2 at the exact threshold: a sink at `Warn` accepts `Warn`
and rejects `Info`. -/
theorem C2_enabled_level_gate_witness :
    (MqttLogger.mk LevelFilter.warn {}).enabled ⟨Level.warn⟩ = true
    ∧ (MqttLogger.mk LevelFilter.warn {}).enabled ⟨Level.info⟩ = false :=
  ⟨(C2_enabled_level_gate ⟨LevelFilter.warn, {}⟩ Level.warn).2.1 (by decide),
   (C2_enabled_level_gate ⟨LevelFilter.warn, {}⟩ Level.info).2.2 (by decide)⟩

/-- C1: `log(record)` is a no-op when the record's level is not enabled;
when enabled, the formatter is invoked against the record and the config,
and an empty byte result enqueues nothing; otherwise the (valid-UTF-8)
bytes, with trailing whitespace trimmed, are wrapped in the publish command
`Command::SendMessage` and sent to the channel. -/
theorem C1_log_pipeline :
    ∀ (lg : MqttLogger) (try_log : Formatter) (r : Record),
      (lg.enabled r.metadata = false → lg.log try_log r = LogOutcome.noop)
      ∧ (∀ data, lg.enabled r.metadata = true →
          try_log lg.config r = Except.ok data → data = [] →
          lg.log try_log r = LogOutcome.noop)
      ∧ (∀ data cs, lg.enabled r.metadata = true →
          try_log lg.config r = Except.ok data → data ≠ [] →
          utf8Decode data = some cs →
          lg.log try_log r =
            LogOutcome.enqueue (Command.sendMessage ⟨trimEnd cs⟩)) := by
  intro lg try_log r
  refine ⟨?_, ?_, ?_⟩
  · intro h
    simp [MqttLogger.log, h]
  · intro data hen hfmt hdata
    subst hdata
    simp [MqttLogger.log, hen, hfmt]
  · intro data cs hen hfmt hne hdec
    cases data with
    | nil => exact absurd rfl hne
    | cons b bs => simp [MqttLogger.log, hen, hfmt, hdec]

/-- Witness for C1: an Info sink formats an Info record to the bytes of
`"hello"` and enqueues `SendMessage "hello"`. -/
theorem C1_log_pipeline_witness :
    (MqttLogger.mk LevelFilter.info {}).log
        (fun _ _ => Except.ok [104, 101, 108, 108, 111]) ⟨⟨Level.info⟩⟩
      = LogOutcome.enqueue (Command.sendMessage "hello") := by
  have h :=
    (C1_log_pipeline ⟨LevelFilter.info, {}⟩
        (fun _ _ => Except.ok [104, 101, 108, 108, 111]) ⟨⟨Level.info⟩⟩).2.2
      [104, 101, 108, 108, 111] (String.toList "hello")
      (by decide) rfl (by decide) (by decide)
  exact h.trans (by decide)

/-- C8: an enabled record whose formatter succeeds with non-empty bytes
that are not valid UTF-8 makes the log path fatal (the
`str::from_utf8(..).unwrap()` panics) instead of skipping or enqueueing. -/
theorem C8_invalid_utf8_fatal :
    ∀ (lg : MqttLogger) (try_log : Formatter) (r : Record) (data : List Nat),
      lg.enabled r.metadata = true → try_log lg.config r = Except.ok data →
      data ≠ [] → utf8Decode data = none →
      lg.log try_log r = LogOutcome.fatalInvalidUtf8 := by
  intro lg try_log r data hen hfmt hne hdec
  cases data with
  | nil => exact absurd rfl hne
  | cons b bs => simp [MqttLogger.log, hen, hfmt, hdec]

/-- Witness for C8: the single byte `0xFF` is not valid UTF-8 and makes
`log` fatal. -/
theorem C8_invalid_utf8_fatal_witness :
    (MqttLogger.mk LevelFilter.info {}).log
        (fun _ _ => Except.ok [0xFF]) ⟨⟨Level.info⟩⟩
      = LogOutcome.fatalInvalidUtf8 :=
  C8_invalid_utf8_fatal ⟨LevelFilter.info, {}⟩ (fun _ _ => Except.ok [0xFF])
    ⟨⟨Level.info⟩⟩ [0xFF] (by decide) rfl (by decide) (by decide)

/-- C9: when the formatter returns an error, `log(record)` silently does
nothing: no command is enqueued and no fatal condition is raised. -/
theorem C9_formatter_error_noop :
    ∀ (lg : MqttLogger) (try_log : Formatter) (r : Record) (e : Unit),
      try_log lg.config r = Except.error e →
      lg.log try_log r = LogOutcome.noop := by
  intro lg try_log r e hfmt
  by_cases hen : lg.enabled r.metadata = true
  · simp [MqttLogger.log, hen, hfmt]
  · simp [MqttLogger.log, hen]

/-- Witness for C9: a formatter that always errors makes `log` a no-op on
an enabled record. -/
theorem C9_formatter_error_noop_witness :
    (MqttLogger.mk LevelFilter.info {}).log
        (fun _ _ => Except.error ()) ⟨⟨Level.info⟩⟩
      = LogOutcome.noop :=
  C9_formatter_error_noop ⟨LevelFilter.info, {}⟩ (fun _ _ => Except.error ())
    ⟨⟨Level.info⟩⟩ () rfl

/-- C10: a non-empty, all-whitespace formatter output (two spaces) passes
the emptiness check, which is performed on the raw bytes before trimming,
and `log` enqueues a publish command whose payload is the empty string. -/
theorem C10_whitespace_payload_empty :
    (MqttLogger.mk LevelFilter.info {}).log
        (fun _ _ => Except.ok [0x20, 0x20]) ⟨⟨Level.info⟩⟩
      = LogOutcome.enqueue (Command.sendMessage "")
    ∧ ([0x20, 0x20] : List Nat) ≠ [] := by
  refine ⟨?_, by decide⟩
  decide

/-- C3: once the worker's receive loop observes `Exit` (the spec's
`Shutdown`), it breaks immediately: commands enqueued after it are left
unconsumed and none of their payloads is ever published. (`pre` is the
prefix before the first `Exit`; its publishes are assumed to succeed, since
a failed publish already aborts the worker before the `Exit`.) -/
theorem C3_shutdown_breaks_immediately :
    ∀ (appName : String) (pubOk : String → Bool) (pre post : List Command),
      Command.exit ∉ pre →
      (∀ m, Command.sendMessage m ∈ pre → pubOk m = true) →
      workerLoop appName pubOk (pre ++ Command.exit :: post) =
        ⟨(workerLoop appName pubOk pre).pubs, post, false⟩ := by
  intro appName pubOk pre post hexit hpub
  induction pre with
  | nil => simp [workerLoop]
  | cons c pre ih =>
    cases c with
    | exit => exact absurd (List.mem_cons_self _ _) hexit
    | sendMessage m =>
      have hm : pubOk m = true := hpub m (List.mem_cons_self _ _)
      have hex : Command.exit ∉ pre := fun h => hexit (List.mem_cons_of_mem _ h)
      have hp : ∀ m', Command.sendMessage m' ∈ pre → pubOk m' = true :=
        fun m' h => hpub m' (List.mem_cons_of_mem _ h)
      simp [workerLoop, hm, ih hex hp]

/-- Witness for C3: with one publish before `Exit` and one after, only the
first is published, the loop stops with the later command unconsumed. -/
theorem C3_shutdown_breaks_immediately_witness :
    workerLoop "app" (fun _ => true)
        [Command.sendMessage "a", Command.exit, Command.sendMessage "b"] =
      ⟨[("logging/app", "a")], [Command.sendMessage "b"], false⟩ := by
  have h :=
    C3_shutdown_breaks_immediately "app" (fun _ => true)
      [Command.sendMessage "a"] [Command.sendMessage "b"]
      (by decide) (fun _ _ => rfl)
  exact h.trans (by decide)

/-- C4: the teardown path first sends `Exit` (the spec's `Shutdown`) to the
channel; with the handle present it joins the worker thread, and a join
failure panics; with the handle already absent (double teardown) it panics
rather than silently succeeding. -/
theorem C4_drop_protocol :
    ∀ (sendOk joinOk : Bool) (handle : Option Unit),
      (mqttDrop sendOk handle joinOk).head? =
        some (DropEvent.sendAttempt Command.exit)
      ∧ (sendOk = true → handle = none →
          mqttDrop sendOk handle joinOk =
            [DropEvent.sendAttempt Command.exit,
             DropEvent.fatal "Missing join handle for MQTT thread"])
      ∧ (sendOk = true → joinOk = false →
          mqttDrop sendOk (some ()) joinOk =
            [DropEvent.sendAttempt Command.exit, DropEvent.joinAttempt,
             DropEvent.fatal "Failed joining MQTT thread"])
      ∧ (sendOk = true → joinOk = true →
          mqttDrop sendOk (some ()) joinOk =
            [DropEvent.sendAttempt Command.exit, DropEvent.joinAttempt]) := by
  intro sendOk joinOk handle
  refine ⟨by simp [mqttDrop], ?_, ?_, ?_⟩
  · intro hs hh
    subst hs; subst hh
    simp [mqttDrop]
  · intro hs hj
    subst hs; subst hj
    simp [mqttDrop]
  · intro hs hj
    subst hs; subst hj
    simp [mqttDrop]

/-- Witness for C4: with a successful send, a missing handle panics, and a
failing join panics after the join attempt. -/
theorem C4_drop_protocol_witness :
    mqttDrop true none false =
      [DropEvent.sendAttempt Command.exit,
       DropEvent.fatal "Missing join handle for MQTT thread"]
    ∧ mqttDrop true (some ()) false =
      [DropEvent.sendAttempt Command.exit, DropEvent.joinAttempt,
       DropEvent.fatal "Failed joining MQTT thread"] :=
  ⟨(C4_drop_protocol true false none).2.1 rfl rfl,
   (C4_drop_protocol true false (some ())).2.2.1 rfl rfl⟩

/-- C5: every publish the worker performs goes to the topic
`"logging/" ++ appName`, fixed at construction — the same topic for every
publish over the sink's lifetime. -/
theorem C5_topic_constant :
    ∀ (appName : String) (pubOk : String → Bool) (cmds : List Command)
      (tp : String × String),
      tp ∈ (workerLoop appName pubOk cmds).pubs →
      tp.1 = "logging/" ++ appName := by
  intro appName pubOk cmds tp hmem
  induction cmds with
  | nil => simp [workerLoop] at hmem
  | cons c rest ih =>
    cases c with
    | exit => simp [workerLoop] at hmem
    | sendMessage m =>
      by_cases hm : pubOk m = true
      · simp [workerLoop, hm] at hmem
        rcases hmem with h | h
        · rw [h]
        · exact ih h
      · simp [workerLoop, Bool.of_not_eq_true hm] at hmem

/-- Witness for C5: the single publish of payload `"x"` under application
name `"app"` goes to topic `"logging/app"`. -/
theorem C5_topic_constant_witness :
    (("logging/app", "x") : String × String).1 = "logging/" ++ "app" :=
  C5_topic_constant "app" (fun _ => true) [Command.sendMessage "x"]
    ("logging/app", "x") (by decide)

/-- C6: a failed broker publish of an established connection is fatal: the
worker panics, publishes nothing, and neither retries the message nor
continues with the rest of the queue. -/
theorem C6_publish_failure_fatal :
    ∀ (appName m : String) (pubOk : String → Bool) (rest : List Command),
      pubOk m = false →
      workerLoop appName pubOk (Command.sendMessage m :: rest) =
        ⟨[], rest, true⟩ := by
  intro appName m pubOk rest hm
  simp [workerLoop, hm]

/-- Witness for C6: a broker refusing every publish makes the worker panic
on the first `SendMessage`, leaving the rest of the queue unconsumed. -/
theorem C6_publish_failure_fatal_witness :
    workerLoop "app" (fun _ => false)
        [Command.sendMessage "x", Command.sendMessage "y"] =
      ⟨[], [Command.sendMessage "y"], true⟩ :=
  C6_publish_failure_fatal "app" "x" (fun _ => false)
    [Command.sendMessage "y"] rfl

/-- C7: when `MqttClient::start` fails, the worker thread returns
immediately: the receive loop is never entered, no command is consumed,
nothing is published, and there is no panic — a silent termination. -/
theorem C7_start_failure_silent :
    ∀ (appName : String) (pubOk : String → Bool) (queue : List Command),
      workerThread appName false pubOk queue = ⟨[], queue, false⟩ := by
  intro appName pubOk queue
  simp [workerThread]

end Simplelog
